import Mathlib

/-!
Shallow embedding of the concurrent monitoring engine of
`src/web/MBCoreServer.py` (Bitcoin-Core-Peer-Map), together with theorems
settling the spec claims about it.

Conventions used throughout:
* Python floats used only for wall-clock timestamps are modelled as `ℚ`.
* Python `dict` caches keyed by strings are modelled as `String → Option _`
  or as association lists when row counts / iteration matter.
* Python truthiness of a string (`not s`) is `s = ""`; truthiness of an
  `Option` (`if x:`) is `Option.isSome` (timestamps are never `0.0` in runs
  we model, matching the code's intent).
-/

namespace MBCore

/-! ## Connectivity monitor (MBCoreServer.py lines 690-786)

Global state: `internet_state` (one of green/yellow/red),
`internet_consecutive_ok`, `internet_failure_start`.  The three entry
points that touch this state are `set_internet_state`, `on_network_failure`,
`on_network_success` and the probe-failure half of `_connectivity_checker`.
Each is embedded as a pure state-transformer; a system run is a fold of
signal events over the state. -/

inductive IState where
  | green
  | yellow
  | red
deriving DecidableEq, Repr

structure ConnState where
  state : IState
  consecutiveOk : Nat
  failureStart : Option ℚ
deriving DecidableEq, Repr

/-- `set_internet_state` (lines 690-703): writes the new state (the
early-return when unchanged yields the same resulting state); the SSE
broadcast has no effect on this state. -/
def set_internet_state (s : ConnState) (new : IState) : ConnState :=
  { s with state := new }

/-- `on_network_failure` (lines 706-717): zero the consecutive-ok counter,
record the failure-start timestamp if currently green, then
`set_internet_state('yellow')` unconditionally.  `t` is `time.time()`. -/
def on_network_failure (t : ℚ) (s : ConnState) : ConnState :=
  let s1 : ConnState :=
    { s with
      consecutiveOk := 0
      failureStart := if s.state = IState.green then some t else s.failureStart }
  set_internet_state s1 IState.yellow

/-- `on_network_success` (lines 719-740): no-op when green; otherwise
increment the counter and, when it reaches 4, reset the bookkeeping and
`set_internet_state('green')`.  (The api-down prompt fields reset in the
same branch are not part of this state.) -/
def on_network_success (s : ConnState) : ConnState :=
  if s.state = IState.green then s
  else if s.consecutiveOk + 1 ≥ 4 then
    set_internet_state { s with consecutiveOk := 0, failureStart := none } IState.green
  else
    { s with consecutiveOk := s.consecutiveOk + 1 }

/-- The probe-failure branch of `_connectivity_checker` (lines 769-778):
reset the consecutive-ok counter; then if the state is yellow and the
failure-start timestamp is set (truthy) and at least 10 seconds old,
`set_internet_state('red')`.  `t` is `time.time()` at the check. -/
def connectivity_checker_fail (t : ℚ) (s : ConnState) : ConnState :=
  let s1 : ConnState := { s with consecutiveOk := 0 }
  match s1.failureStart with
  | some f =>
      if s1.state = IState.yellow ∧ t - f ≥ 10 then set_internet_state s1 IState.red
      else s1
  | none => s1

/-- The network-related signals that drive the connectivity state:
a failed external call (`on_network_failure`), a successful external call
or probe (`on_network_success`), and a failed probe inside
`_connectivity_checker`. -/
inductive NetEvent where
  | failure (t : ℚ)
  | success
  | probeFail (t : ℚ)
deriving DecidableEq, Repr

def connStep (s : ConnState) : NetEvent → ConnState
  | NetEvent.failure t => on_network_failure t s
  | NetEvent.success => on_network_success s
  | NetEvent.probeFail t => connectivity_checker_fail t s

def runConn (s : ConnState) (es : List NetEvent) : ConnState :=
  es.foldl connStep s

/-- Initial connectivity state (line 191-194): green, counter 0, no
failure-start timestamp. -/
def connInit : ConnState := ⟨IState.green, 0, none⟩

example : (runConn connInit [NetEvent.failure 0]).state = IState.yellow := rfl
example :
    (runConn connInit
      [NetEvent.failure 0, NetEvent.success, NetEvent.success, NetEvent.success,
        NetEvent.success]).state = IState.green := rfl
example :
    (runConn connInit
      [NetEvent.failure 0, NetEvent.success, NetEvent.success, NetEvent.failure 1,
        NetEvent.success, NetEvent.success, NetEvent.success]).state = IState.yellow := rfl

/-- The set of connectivity transitions the code can actually take:
the three edges of spec §4.2 plus `red → yellow`, which
`on_network_failure` takes because it calls `set_internet_state('yellow')`
unconditionally (line 714), whatever the current state. -/
def connEdges : List (IState × IState) :=
  [(IState.green, IState.yellow), (IState.red, IState.yellow),
    (IState.yellow, IState.red), (IState.yellow, IState.green),
    (IState.red, IState.green)]

/-- C2 counterexample: from the initial state, the event sequence
failure at t=0 (green→yellow), probe failure at t=11 (yellow→red), then a
network-failure signal at t=12 moves the state from red back to yellow —
the claim says no step ever moves red to yellow. -/
theorem connectivity_red_to_yellow_counterexample :
    (runConn connInit [NetEvent.failure 0, NetEvent.probeFail 11]).state = IState.red ∧
    (connStep (runConn connInit [NetEvent.failure 0, NetEvent.probeFail 11])
        (NetEvent.failure 12)).state = IState.yellow := by
  constructor
  · show (connectivity_checker_fail 11 (on_network_failure 0 connInit)).state = IState.red
    norm_num [on_network_failure, connectivity_checker_fail, set_internet_state, connInit]
  · rfl

/-- C2 (amended): every state change taken by a network-failure signal,
a success signal, or a probe failure is one of: green→yellow (failure),
red→yellow (failure signal while red), yellow→red (sustained failure),
yellow→green or red→green (4 consecutive successes). -/
theorem connectivity_transitions_amended (s : ConnState) (e : NetEvent)
    (h : (connStep s e).state ≠ s.state) :
    (s.state, (connStep s e).state) ∈ connEdges := by
  cases e with
  | failure t =>
      have hst : (connStep s (NetEvent.failure t)).state = IState.yellow := rfl
      rw [hst] at h ⊢
      cases hs : s.state <;> simp [hs] at h <;> simp [connEdges]
  | success =>
      by_cases hg : s.state = IState.green
      · exact absurd (by simp [connStep, on_network_success, hg]) h
      · by_cases h4 : s.consecutiveOk + 1 ≥ 4
        · have hst : (connStep s NetEvent.success).state = IState.green := by
            simp [connStep, on_network_success, hg, h4, set_internet_state]
          rw [hst] at h ⊢
          cases hs : s.state <;> simp [hs] at hg h ⊢ <;> simp [connEdges]
        · exact absurd (by simp [connStep, on_network_success, hg, h4]) h
  | probeFail t =>
      match hf : s.failureStart with
      | none =>
          exact absurd (by simp [connStep, connectivity_checker_fail, hf]) h
      | some f =>
          by_cases hc : s.state = IState.yellow ∧ t - f ≥ 10
          · have hst : (connStep s (NetEvent.probeFail t)).state = IState.red := by
              simp [connStep, connectivity_checker_fail, hf, hc, set_internet_state]
            rw [hst, hc.1] at *
            simp [connEdges]
          · exact absurd (by simp [connStep, connectivity_checker_fail, hf, hc]) h

/-- Witness for `connectivity_transitions_amended`: the first failure
signal from the initial green state takes the green→yellow edge. -/
theorem connectivity_transitions_amended_witness :
    (connInit.state, (connStep connInit (NetEvent.failure 0)).state) ∈ connEdges :=
  connectivity_transitions_amended connInit (NetEvent.failure 0) (by decide)

/-- C4: a step enters `red` only from `yellow` (never from `green`), only
on a probe failure, and only when the recorded failure-start timestamp is
at least 10 seconds in the past; conversely, a probe failure in `yellow`
with a failure-start at least 10 seconds old does enter `red`. -/
theorem connectivity_yellow_to_red_needs_ten_seconds :
    (∀ (s : ConnState) (e : NetEvent),
        (connStep s e).state = IState.red → s.state ≠ IState.red →
          s.state = IState.yellow ∧
            ∃ t f, e = NetEvent.probeFail t ∧ s.failureStart = some f ∧ 10 ≤ t - f) ∧
    (∀ (s : ConnState) (t f : ℚ),
        s.state = IState.yellow → s.failureStart = some f → 10 ≤ t - f →
          (connStep s (NetEvent.probeFail t)).state = IState.red) := by
  constructor
  · intro s e hred hnot
    cases e with
    | failure t =>
        exact absurd hred (by simp [connStep, on_network_failure, set_internet_state])
    | success =>
        by_cases hg : s.state = IState.green
        · rw [show (connStep s NetEvent.success).state = s.state by
            simp [connStep, on_network_success, hg]] at hred
          exact absurd hred (by simp [hg])
        · by_cases h4 : s.consecutiveOk + 1 ≥ 4
          · exact absurd hred
              (by simp [connStep, on_network_success, hg, h4, set_internet_state])
          · rw [show (connStep s NetEvent.success).state = s.state by
              simp [connStep, on_network_success, hg, h4]] at hred
            exact absurd hred hnot
    | probeFail t =>
        match hf : s.failureStart with
        | none =>
            rw [show (connStep s (NetEvent.probeFail t)).state = s.state by
              simp [connStep, connectivity_checker_fail, hf]] at hred
            exact absurd hred hnot
        | some f =>
            by_cases hc : s.state = IState.yellow ∧ t - f ≥ 10
            · exact ⟨hc.1, t, f, rfl, rfl, hc.2⟩
            · rw [show (connStep s (NetEvent.probeFail t)).state = s.state by
                simp [connStep, connectivity_checker_fail, hf, hc]] at hred
              exact absurd hred hnot
  · intro s t f hy hf hten
    simp [connStep, connectivity_checker_fail, hf, hy, hten, set_internet_state]

/-- Witness for `connectivity_yellow_to_red_needs_ten_seconds`: a probe
failure at t=10 with failure-start 0 moves a yellow state to red. -/
theorem connectivity_yellow_to_red_needs_ten_seconds_witness :
    (connStep ⟨IState.yellow, 0, some 0⟩ (NetEvent.probeFail 10)).state = IState.red :=
  connectivity_yellow_to_red_needs_ten_seconds.2 ⟨IState.yellow, 0, some 0⟩ 10 0 rfl rfl
    (by norm_num)

/-! ### Reaching green: 4 consecutive successes (spec §4.2, claim C5) -/

def isSuccessEvent : NetEvent → Bool
  | NetEvent.success => true
  | _ => false

/-- The number of trailing success signals of an event sequence (the length
of its maximal all-success suffix). -/
def trailingSucc (es : List NetEvent) : Nat :=
  (es.reverse.takeWhile isSuccessEvent).length

theorem trailingSucc_append (es : List NetEvent) (e : NetEvent) :
    trailingSucc (es ++ [e]) =
      if isSuccessEvent e then trailingSucc es + 1 else 0 := by
  simp only [trailingSucc, List.reverse_append, List.reverse_cons, List.reverse_nil,
    List.nil_append, List.singleton_append, List.takeWhile_cons]
  by_cases h : isSuccessEvent e <;> simp [h]

theorem connStep_probeFail_consecutiveOk (s : ConnState) (t : ℚ) :
    (connStep s (NetEvent.probeFail t)).consecutiveOk = 0 := by
  rcases hf : s.failureStart with _ | f
  · simp [connStep, connectivity_checker_fail, hf]
  · simp only [connStep, connectivity_checker_fail, hf]
    split
    · rfl
    · rfl

theorem connStep_probeFail_state (s : ConnState) (t : ℚ) :
    (connStep s (NetEvent.probeFail t)).state = s.state ∨
      (connStep s (NetEvent.probeFail t)).state = IState.red := by
  rcases hf : s.failureStart with _ | f
  · left; simp [connStep, connectivity_checker_fail, hf]
  · by_cases hc : s.state = IState.yellow ∧ t - f ≥ 10
    · right; simp [connStep, connectivity_checker_fail, hf, hc, set_internet_state]
    · left; simp [connStep, connectivity_checker_fail, hf, hc]

theorem connStep_success_of_lt (s : ConnState) (hg : s.state ≠ IState.green)
    (h4 : s.consecutiveOk + 1 < 4) :
    connStep s NetEvent.success = { s with consecutiveOk := s.consecutiveOk + 1 } := by
  simp [connStep, on_network_success, hg, Nat.not_le.mpr h4]

theorem connStep_success_state_of_ge (s : ConnState) (hg : s.state ≠ IState.green)
    (h4 : 4 ≤ s.consecutiveOk + 1) :
    (connStep s NetEvent.success).state = IState.green := by
  simp [connStep, on_network_success, hg, h4, set_internet_state]

/-- While no prefix of the event sequence has accumulated 4 trailing
successes, a run that starts non-green with counter 0 stays non-green and
its counter equals the number of trailing successes seen so far. -/
theorem conn_run_nongreen (es : List NetEvent) (s0 : ConnState)
    (hg : s0.state ≠ IState.green) (hk : s0.consecutiveOk = 0)
    (hbound : ∀ n, n ≤ es.length → trailingSucc (es.take n) ≤ 3) :
    (runConn s0 es).state ≠ IState.green ∧
      (runConn s0 es).consecutiveOk = trailingSucc es := by
  induction es using List.reverseRecOn with
  | nil => simpa [runConn, trailingSucc] using ⟨hg, hk⟩
  | append_singleton es e ih =>
      have hrun : runConn s0 (es ++ [e]) = connStep (runConn s0 es) e := by
        simp [runConn, List.foldl_append]
      have hb : ∀ n, n ≤ es.length → trailingSucc (es.take n) ≤ 3 := by
        intro n hn
        have := hbound n (by simp; omega)
        rwa [List.take_append_of_le_length hn] at this
      obtain ⟨ihg, ihk⟩ := ih hb
      have hfull : trailingSucc (es ++ [e]) ≤ 3 := by
        have := hbound (es ++ [e]).length le_rfl
        rwa [List.take_length] at this
      cases e with
      | success =>
          have hts : trailingSucc (es ++ [NetEvent.success]) = trailingSucc es + 1 := by
            simp [trailingSucc_append, isSuccessEvent]
          have h4 : (runConn s0 es).consecutiveOk + 1 < 4 := by
            rw [ihk]; omega
          rw [hrun, connStep_success_of_lt _ ihg h4, hts]
          exact ⟨ihg, by simp [ihk]⟩
      | failure t =>
          have hts : trailingSucc (es ++ [NetEvent.failure t]) = 0 := by
            simp [trailingSucc_append, isSuccessEvent]
          rw [hrun, hts]
          exact ⟨by simp [connStep, on_network_failure, set_internet_state], rfl⟩
      | probeFail t =>
          have hts : trailingSucc (es ++ [NetEvent.probeFail t]) = 0 := by
            simp [trailingSucc_append, isSuccessEvent]
          rw [hrun, hts]
          refine ⟨?_, connStep_probeFail_consecutiveOk _ t⟩
          rcases connStep_probeFail_state (runConn s0 es) t with h | h <;> rw [h]
          · exact ihg
          · simp

/-- When every proper prefix has at most 3 trailing successes and the full
sequence has at least 4, the run ends green (the 4th consecutive success
flips the state). -/
theorem conn_run_first_green (es : List NetEvent) (s0 : ConnState)
    (hg : s0.state ≠ IState.green) (hk : s0.consecutiveOk = 0)
    (hbound : ∀ n, n < es.length → trailingSucc (es.take n) ≤ 3)
    (hfull : 4 ≤ trailingSucc es) :
    (runConn s0 es).state = IState.green := by
  have hne : es ≠ [] := by
    rintro rfl
    simp [trailingSucc] at hfull
  have hdecomp : es.dropLast ++ [es.getLast hne] = es := List.dropLast_append_getLast hne
  have hlen : es.dropLast.length = es.length - 1 := List.length_dropLast es
  have hlenpos : 0 < es.length := List.length_pos.mpr hne
  -- the last event must be a success, and the prefix has exactly 3 trailing successes
  have hts : trailingSucc es =
      if isSuccessEvent (es.getLast hne) then trailingSucc es.dropLast + 1 else 0 := by
    conv_lhs => rw [← hdecomp]
    exact trailingSucc_append _ _
  have hsucc : isSuccessEvent (es.getLast hne) = true := by
    by_contra h
    rw [hts] at hfull
    simp [h] at hfull
  have hdrop3 : trailingSucc es.dropLast ≤ 3 := by
    have := hbound (es.length - 1) (by omega)
    rwa [← List.dropLast_eq_take] at this
  have hdrop3' : 3 ≤ trailingSucc es.dropLast := by
    rw [hts, hsucc] at hfull
    simpa using hfull
  have hbound' : ∀ n, n ≤ es.dropLast.length → trailingSucc (es.dropLast.take n) ≤ 3 := by
    intro n hn
    rw [List.dropLast_eq_take, List.take_take]
    exact hbound (min n (es.length - 1)) (by omega)
  obtain ⟨hng, hok⟩ := conn_run_nongreen es.dropLast s0 hg hk hbound'
  have hlast : es.getLast hne = NetEvent.success := by
    cases h : es.getLast hne <;> simp [h, isSuccessEvent] at hsucc ⊢
  have hrun : runConn s0 es = connStep (runConn s0 es.dropLast) (es.getLast hne) := by
    conv_lhs => rw [← hdecomp]
    simp [runConn, List.foldl_append]
  rw [hrun, hlast]
  exact connStep_success_state_of_ge _ hng (by omega)

/-- C5: (a) any failure signal — external-call failure or probe failure —
resets the consecutive-success counter to 0; (b) starting from a non-green
state with counter 0, a run of signals ends green with no green state at
any proper prefix exactly when its trailing run of success signals reaches
4 at the last event and no prefix ever accumulated 4 consecutive successes
earlier, i.e. the state becomes green exactly at the 4th consecutive
success signal with no intervening failure. -/
theorem connectivity_green_after_four_successes :
    (∀ (s : ConnState) (t : ℚ),
        (connStep s (NetEvent.failure t)).consecutiveOk = 0 ∧
        (connStep s (NetEvent.probeFail t)).consecutiveOk = 0) ∧
    (∀ s0 : ConnState, s0.state ≠ IState.green → s0.consecutiveOk = 0 →
      ∀ es : List NetEvent,
        ((runConn s0 es).state = IState.green ∧
            ∀ n, n < es.length → (runConn s0 (es.take n)).state ≠ IState.green) ↔
          (4 ≤ trailingSucc es ∧ ∀ n, n < es.length → trailingSucc (es.take n) ≤ 3)) := by
  constructor
  · exact fun s t => ⟨rfl, connStep_probeFail_consecutiveOk s t⟩
  · intro s0 hg hk es
    constructor
    · rintro ⟨hgreen, hproper⟩
      -- no proper prefix accumulates 4 trailing successes
      have hA : ∀ n, n < es.length → trailingSucc (es.take n) ≤ 3 := by
        by_contra hA
        push_neg at hA
        obtain ⟨n, hn, h4⟩ := hA
        have hex : ∃ m, 4 ≤ trailingSucc (es.take m) := ⟨n, by omega⟩
        set m0 := Nat.find hex with hm0
        have hP0 : 4 ≤ trailingSucc (es.take m0) := Nat.find_spec hex
        have hmin : ∀ m, m < m0 → trailingSucc (es.take m) ≤ 3 := by
          intro m hm
          have := Nat.find_min hex hm
          omega
        have hm0len : m0 < es.length := lt_of_le_of_lt (Nat.find_min' hex (by omega)) hn
        have hgr : (runConn s0 (es.take m0)).state = IState.green := by
          refine conn_run_first_green _ s0 hg hk ?_ hP0
          intro m hm
          rw [List.take_take]
          have hmm0 : m < m0 := by
            simp [List.length_take] at hm
            omega
          rw [min_eq_left (le_of_lt hmm0)]
          exact hmin m hmm0
        exact hproper m0 hm0len hgr
      refine ⟨?_, hA⟩
      -- the full sequence must end in a 4th consecutive success
      by_contra hlt
      push_neg at hlt
      have hall : ∀ n, n ≤ es.length → trailingSucc (es.take n) ≤ 3 := by
        intro n hn
        rcases lt_or_eq_of_le hn with h | h
        · exact hA n h
        · subst h
          rw [List.take_length]
          omega
      exact (conn_run_nongreen es s0 hg hk hall).1 hgreen
    · rintro ⟨hfull, hbound⟩
      constructor
      · exact conn_run_first_green es s0 hg hk hbound hfull
      · intro n hn
        refine (conn_run_nongreen (es.take n) s0 hg hk ?_).1
        intro m hm
        rw [List.take_take]
        have : min m n < es.length := by omega
        exact hbound _ (by omega)

/-- Witness for `connectivity_green_after_four_successes`: from a yellow
state with counter 0, four consecutive success signals end green, and the
counter-reset part at a concrete state. -/
theorem connectivity_green_after_four_successes_witness :
    (connStep ⟨IState.red, 2, some 0⟩ (NetEvent.failure 5)).consecutiveOk = 0 ∧
    (runConn ⟨IState.yellow, 0, none⟩
        [NetEvent.success, NetEvent.success, NetEvent.success, NetEvent.success]).state =
      IState.green :=
  ⟨(connectivity_green_after_four_successes.1 ⟨IState.red, 2, some 0⟩ 5).1,
    ((connectivity_green_after_four_successes.2 ⟨IState.yellow, 0, none⟩ (by decide) rfl
        [NetEvent.success, NetEvent.success, NetEvent.success, NetEvent.success]).mpr
      (by decide)).1⟩

/-! ## Geolocation data model (MBCoreServer.py lines 337-526)

A value fetched from the external API JSON is either a number (anything
Python `float()` accepts, modelled as `ℚ`) or a value on which `float()`
raises (`GNum.nonNum`).  A payload dictionary carries the fields the code
reads via `data.get(...)`; a missing key is `none` for `lat`/`lon` and the
code's `get` default for the rest.  String values are modelled as `String`
(Python truthiness of a string is emptiness). -/

inductive GNum where
  | num (q : ℚ)
  | nonNum
deriving DecidableEq, Repr

structure GeoPayload where
  lat : Option GNum := none
  lon : Option GNum := none
  continent : String := ""
  continentCode : String := ""
  country : String := ""
  countryCode : String := ""
  region : String := ""
  regionName : String := ""
  city : String := ""
  district : String := ""
  zip : String := ""
  timezone : String := ""
  offsetVal : ℤ := 0
  currency : String := ""
  isp : String := ""
  org : String := ""
  asField : String := ""
  asname : String := ""
  mobile : Bool := false
  proxy : Bool := false
  hosting : Bool := false
deriving DecidableEq, Repr

/-- Python `str.strip()` yields the empty string iff every character of
the string is whitespace (modelling the default strip set; the strings the
program meets are ASCII). -/
def pyStripEmpty (s : String) : Bool :=
  s.toList.all
    (fun c => c = ' ' ∨ c = '\t' ∨ c = '\n' ∨ c = '\r' ∨ c = '\x0b' ∨ c = '\x0c')

/-- `is_valid_geo_data` (lines 435-458).  `data.get('lat')` returning
`None` or `float()` raising lands in the `False` branches; Python
`not country` is `country = ""` and `not country.strip()` is
`pyStripEmpty country`. -/
def is_valid_geo_data (d : GeoPayload) : Bool :=
  match d.lat, d.lon with
  | some (GNum.num la), some (GNum.num lo) =>
    if ¬(-90 ≤ la ∧ la ≤ 90) ∨ ¬(-180 ≤ lo ∧ lo ≤ 180) then false
    else if la = 0 ∧ lo = 0 ∧ d.country = "" then false
    else if d.country = "" ∨ pyStripEmpty d.country then false
    else true
  | _, _ => false

/-- The validity predicate exactly as the spec sentence words it
("latitude and longitude are present, numeric, and within
[-90,90]/[-180,180]; the pair (0,0) is rejected unless a non-empty country
is present; a non-empty country string is mandatory"). -/
def specValidGeo (d : GeoPayload) : Prop :=
  ∃ la lo, d.lat = some (GNum.num la) ∧ d.lon = some (GNum.num lo) ∧
    -90 ≤ la ∧ la ≤ 90 ∧ -180 ≤ lo ∧ lo ≤ 180 ∧
    d.country ≠ "" ∧ (la = 0 ∧ lo = 0 → d.country ≠ "")

example : is_valid_geo_data { lat := some (GNum.num 0), lon := some (GNum.num 0) } = false := by
  decide
example :
    is_valid_geo_data
      { lat := some (GNum.num 0), lon := some (GNum.num 0), country := "Ghana" } = true := by
  decide

/-- A row of the `geo_cache` table (schema at lines 343-369). -/
structure GeoRow where
  ip : String
  continent : String
  continentCode : String
  country : String
  countryCode : String
  region : String
  regionName : String
  city : String
  district : String
  zip : String
  lat : ℚ
  lon : ℚ
  timezone : String
  utc_offset : ℤ
  currency : String
  isp : String
  org : String
  as_info : String
  asname : String
  mobile : ℤ
  proxy : ℤ
  hosting : ℤ
  last_updated : ℤ
deriving DecidableEq, Repr

/-- The persistent geo store: the rows of `geo_cache`, keyed by the
`ip TEXT PRIMARY KEY` column. -/
abbrev GeoDb := List GeoRow

/-- `SELECT * FROM geo_cache WHERE ip = ?`: the row with that primary
key. -/
def lookupRow (db : GeoDb) (ip : String) : Option GeoRow :=
  db.find? (fun r => r.ip = ip)

/-- `INSERT ... ON CONFLICT(ip) DO UPDATE SET <every column>` of
`save_geo_to_db` (lines 468-497): replace the row with the same key, or
append a new row. -/
def upsertRow (r : GeoRow) (db : GeoDb) : GeoDb :=
  if db.any (fun x => x.ip = r.ip) then
    db.map (fun x => if x.ip = r.ip then r else x)
  else db ++ [r]

/-- The tuple bound by `save_geo_to_db` (lines 498-522): each column comes
from `data.get(key, default)`; a missing `lat`/`lon` defaults to 0, the
flags are stored as 0/1 integers, `last_updated` is `now`.  A non-numeric
`lat`/`lon` value never reaches this point in the program (the worker
validates first), so it is mapped to the SQL-side 0 placeholder here. -/
def rowOfData (ip : String) (d : GeoPayload) (now : ℤ) : GeoRow where
  ip := ip
  continent := d.continent
  continentCode := d.continentCode
  country := d.country
  countryCode := d.countryCode
  region := d.region
  regionName := d.regionName
  city := d.city
  district := d.district
  zip := d.zip
  lat := match d.lat with | some (GNum.num q) => q | _ => 0
  lon := match d.lon with | some (GNum.num q) => q | _ => 0
  timezone := d.timezone
  utc_offset := d.offsetVal
  currency := d.currency
  isp := d.isp
  org := d.org
  as_info := d.asField
  asname := d.asname
  mobile := if d.mobile then 1 else 0
  proxy := if d.proxy then 1 else 0
  hosting := if d.hosting then 1 else 0
  last_updated := now

/-- `save_geo_to_db` (lines 461-526): no-op when the database feature is
disabled, otherwise the upsert above. -/
def save_geo_to_db (enabled : Bool) (ip : String) (d : GeoPayload) (now : ℤ)
    (db : GeoDb) : GeoDb :=
  if enabled then upsertRow (rowOfData ip d now) db else db

/-- `get_geo_from_db` (lines 420-432): `None` when disabled (or the file
is missing, folded into `enabled`), otherwise the row for the IP. -/
def get_geo_from_db (enabled : Bool) (ip : String) (db : GeoDb) : Option GeoRow :=
  if enabled then lookupRow db ip else none

theorem find?_map_replace (r : GeoRow) (db : List GeoRow)
    (h : db.any (fun x => x.ip = r.ip) = true) :
    List.find? (fun y => y.ip = r.ip)
      (db.map (fun x => if x.ip = r.ip then r else x)) = some r := by
  induction db with
  | nil => simp at h
  | cons x xs ih =>
      by_cases hx : x.ip = r.ip
      · simp only [List.map_cons, if_pos hx]
        exact List.find?_cons_of_pos _ (by simp)
      · simp only [List.any_cons] at h
        have hxs : xs.any (fun y => y.ip = r.ip) = true := by
          rcases Bool.or_eq_true_iff.mp h with h1 | h1
          · exact absurd (of_decide_eq_true h1) hx
          · exact h1
        simp only [List.map_cons, if_neg hx]
        rw [List.find?_cons_of_neg _ (by simpa using hx)]
        exact ih hxs

theorem find?_append_self (r : GeoRow) (db : List GeoRow)
    (h : db.any (fun x => x.ip = r.ip) = false) :
    List.find? (fun y => y.ip = r.ip) (db ++ [r]) = some r := by
  induction db with
  | nil => simp
  | cons x xs ih =>
      simp only [List.any_cons, Bool.or_eq_false_iff] at h
      simp only [List.cons_append]
      rw [List.find?_cons_of_neg _ (by simpa using h.1)]
      exact ih h.2

theorem lookupRow_upsertRow_self (r : GeoRow) (db : GeoDb) :
    lookupRow (upsertRow r db) r.ip = some r := by
  unfold lookupRow upsertRow
  by_cases h : db.any (fun x => x.ip = r.ip) = true
  · rw [if_pos h]
    exact find?_map_replace r db h
  · rw [if_neg h]
    exact find?_append_self r db (by simpa using h)

/-! ## Python string primitives over character lists

`String.splitOn`, `String.startsWith` and friends walk byte positions and
do not reduce inside the kernel, so the handful of Python string
operations the code uses (`startswith`, `in`, `split`, `int()`) are
re-implemented over `String.toList`, which does reduce. -/

def startsWithChars : List Char → List Char → Bool
  | _, [] => true
  | [], _ :: _ => false
  | c :: cs, p :: ps => c == p && startsWithChars cs ps

/-- Python `sub in s` on the character lists (`sub` is never empty where
the code uses it). -/
def containsSubChars (l sub : List Char) : Bool :=
  match l with
  | [] => sub.isEmpty
  | _ :: rest => startsWithChars l sub || containsSubChars rest sub

def splitSubAux : Nat → List Char → List Char → List Char → List (List Char)
  | 0, _, rest, acc => [acc.reverse ++ rest]
  | _ + 1, _, [], acc => [acc.reverse]
  | fuel + 1, sep, c :: cs, acc =>
      if startsWithChars (c :: cs) sep then
        acc.reverse :: splitSubAux fuel sep (List.drop sep.length (c :: cs)) []
      else splitSubAux fuel sep cs (c :: acc)

/-- Python `s.split(sep)` for a non-empty separator
(left-to-right, non-overlapping). -/
def splitSub (sep l : List Char) : List (List Char) :=
  splitSubAux (l.length + 1) sep l []

def pyStartsWith (s pre : String) : Bool :=
  startsWithChars s.toList pre.toList

def pyContains (s sub : String) : Bool :=
  containsSubChars s.toList sub.toList

def pySplitL (sep s : String) : List (List Char) :=
  splitSub sep.toList s.toList

def charsToNatAux : List Char → Nat → Option Nat
  | [], acc => some acc
  | c :: cs, acc =>
      if c.isDigit then charsToNatAux cs (acc * 10 + (c.toNat - '0'.toNat)) else none

/-- Python `int(str)` on the strings that occur here: an optional sign
followed by decimal digits (anything else raises, giving `none`). -/
def pyToIntChars (l : List Char) : Option Int :=
  match l with
  | [] => none
  | '-' :: rest =>
      if rest.isEmpty then none
      else (charsToNatAux rest 0).map (fun n => -(n : Int))
  | '+' :: rest =>
      if rest.isEmpty then none
      else (charsToNatAux rest 0).map (fun n => (n : Int))
  | l => (charsToNatAux l 0).map (fun n => (n : Int))

example : pyToIntChars "16".toList = some 16 := by decide
example : pyToIntChars "-4".toList = some (-4) := by decide
example : pyToIntChars "x7".toList = none := by decide
example : splitSub ":".toList "2.2.2.2:8333".toList =
    ["2.2.2.2".toList, "8333".toList] := by decide

/-! ## Network utilities (MBCoreServer.py lines 558-603) -/

def colonCount (addr : String) : Nat :=
  (addr.toList.filter (fun c => c = ':')).length

/-- `get_network_type` (lines 558-567). -/
def get_network_type (addr : String) : String :=
  if pyContains addr ".onion" then "onion"
  else if pyContains addr ".i2p" then "i2p"
  else if pyStartsWith addr "fc" || pyStartsWith addr "fd" then "cjdns"
  else if pyContains addr ":" && colonCount addr > 1 then "ipv6"
  else "ipv4"

/-- `is_private_ip` (lines 570-583): the RFC1918 ranges, loopback and
link-local; a parse failure on the second octet of a `172.` address falls
through, as the `except: pass` does. -/
def is_private_ip (ip : String) : Bool :=
  if pyStartsWith ip "10." || pyStartsWith ip "192.168." then true
  else if pyStartsWith ip "172." &&
      (match pyToIntChars ((pySplitL "." ip).getD 1 []) with
        | some n => decide (16 ≤ n ∧ n ≤ 31)
        | none => false) then true
  else if pyStartsWith ip "127." || ip == "localhost" then true
  else if pyStartsWith ip "fe80:" || ip == "::1" then true
  else false

/-- `is_public_address` (lines 586-587). -/
def is_public_address (network_type ip : String) : Bool :=
  (network_type == "ipv4" || network_type == "ipv6") && !(is_private_ip ip)

/-- `extract_ip` (lines 590-595): bracketed IPv6 keeps what stands between
the brackets (dropping the opening bracket); with at most one colon, the
part before it; with several colons (and no bracket), the first
colon-separated field. -/
def extract_ip (addr : String) : String :=
  if pyStartsWith addr "[" then String.mk (((pySplitL "]" addr).headD []).drop 1)
  else if pyContains addr ":" && colonCount addr ≤ 1 then
    String.mk ((pySplitL ":" addr).headD [])
  else if pyContains addr ":" then String.mk ((pySplitL ":" addr).headD [])
  else addr

/-- `extract_port` (lines 598-603). -/
def extract_port (addr : String) : String :=
  if pyStartsWith addr "[" && (pySplitL "]:" addr).length > 1 then
    String.mk ((pySplitL "]:" addr).getD 1 [])
  else if pyContains addr ":" && colonCount addr ≤ 1 then
    String.mk ((pySplitL ":" addr).getD 1 [])
  else ""

example : get_network_type "2.2.2.2:8333" = "ipv4" := by decide
example : extract_ip "2.2.2.2:8333" = "2.2.2.2" := by decide
example : extract_port "2.2.2.2:8333" = "8333" := by decide
example : is_private_ip "192.168.4.7" = true := by decide
example : is_private_ip "172.20.1.1" = true := by decide
example : is_private_ip "172.9.1.1" = false := by decide
example : is_private_ip "8.8.8.8" = false := by decide

/-! ## Session geo cache and the geo worker
(MBCoreServer.py lines 844-967)

`geo_cache` is a dict ip → entry guarded by `geo_cache_lock`; entries are
written only by the worker (status `ok`/`unavailable`) and by
`set_cached_geo_private` (status `private`).  Values copied out of a
payload or database row into an entry keep their meaning; the 0/1 integer
flags of a database row are modelled back to their truthiness. -/

structure CacheEntry where
  status : String := ""
  continent : String := ""
  continentCode : String := ""
  country : String := ""
  countryCode : String := ""
  region : String := ""
  regionName : String := ""
  city : String := ""
  district : String := ""
  zip : String := ""
  lat : GNum := GNum.num 0
  lon : GNum := GNum.num 0
  timezone : String := ""
  offsetVal : ℤ := 0
  currency : String := ""
  isp : String := ""
  org : String := ""
  asField : String := ""
  asname : String := ""
  mobile : Bool := false
  proxy : Bool := false
  hosting : Bool := false
deriving DecidableEq, Repr

def GeoCache := String → Option CacheEntry

def cacheSet (c : GeoCache) (ip : String) (e : CacheEntry) : GeoCache :=
  fun x => if x = ip then some e else c x

/-- `get_cached_geo` (lines 940-943). -/
def get_cached_geo (c : GeoCache) (ip : String) : Option CacheEntry := c ip

/-- The all-empty entry with status `unavailable` the worker writes when
the lookup produced no data (lines 913-924). -/
def unavailableEntry : CacheEntry := { status := "unavailable" }

/-- The all-empty entry with status `private` (lines 948-959). -/
def privateEntry : CacheEntry := { status := "private" }

/-- `set_cached_geo_private` (lines 946-959). -/
def set_cached_geo_private (c : GeoCache) (ip : String) : GeoCache :=
  cacheSet c ip privateEntry

/-- The session-cache entry built from a fresh API payload
(lines 889-912, `from_db = False` side of the conditionals). -/
def entryOfPayload (d : GeoPayload) : CacheEntry where
  status := "ok"
  continent := d.continent
  continentCode := d.continentCode
  country := d.country
  countryCode := d.countryCode
  region := d.region
  regionName := d.regionName
  city := d.city
  district := d.district
  zip := d.zip
  lat := d.lat.getD (GNum.num 0)
  lon := d.lon.getD (GNum.num 0)
  timezone := d.timezone
  offsetVal := d.offsetVal
  currency := d.currency
  isp := d.isp
  org := d.org
  asField := d.asField
  asname := d.asname
  mobile := d.mobile
  proxy := d.proxy
  hosting := d.hosting

/-- The session-cache entry built from a persistent-store row
(lines 889-912, `from_db = True`: `offset` reads `utc_offset`, `as` reads
`as_info`; the 0/1 flags are read back as their truthiness). -/
def entryOfRow (r : GeoRow) : CacheEntry where
  status := "ok"
  continent := r.continent
  continentCode := r.continentCode
  country := r.country
  countryCode := r.countryCode
  region := r.region
  regionName := r.regionName
  city := r.city
  district := r.district
  zip := r.zip
  lat := GNum.num r.lat
  lon := GNum.num r.lon
  timezone := r.timezone
  offsetVal := r.utc_offset
  currency := r.currency
  isp := r.isp
  org := r.org
  asField := r.as_info
  asname := r.asname
  mobile := r.mobile ≠ 0
  proxy := r.proxy ≠ 0
  hosting := r.hosting ≠ 0

/-- Everything one pass of the `geo_worker` loop body (lines 861-937)
reads, for one dequeued `(ip, network_type)` pair.  `apiResult` is what
`fetch_geo_api(ip)` would return if called (`none` for transport failure
or a non-success response; the connectivity signalling it also performs is
the `NetEvent` model above). -/
structure GeoWorkerEnv where
  db : GeoDb
  geo_db_enabled : Bool
  geo_db_only_mode : Bool
  internet_state : IState
  apiResult : Option GeoPayload
  now : ℤ
  cache : GeoCache
  offline_queue : List (String × String)
  pending : List String

/-- Everything that pass writes: the (possibly) extended persistent store,
the session cache, the entry stored for the IP, the offline retry list,
whether the external API was consulted, the payload persisted (if any),
and the pending set after `pending_lookups.discard(ip)` (line 927). -/
structure GeoWorkerOut where
  db : GeoDb
  cache : GeoCache
  entryWritten : CacheEntry
  offline_queue : List (String × String)
  apiCalled : Bool
  dbWrite : Option GeoPayload
  pending : List String

/-- One pass of the `geo_worker` loop body (lines 861-937) for a dequeued
IP: consult the persistent store; on a miss either defer (database-only
mode or non-green connectivity — lines 871-875, writing the `unavailable`
entry at lines 913-924) or call the API, persisting only payloads that
pass `is_valid_geo_data` (lines 877-884); finally store the session entry
and release the IP from the pending set. -/
def geo_worker_step (env : GeoWorkerEnv) (ip network_type : String) : GeoWorkerOut :=
  match get_geo_from_db env.geo_db_enabled ip env.db with
  | some row =>
      { db := env.db
        cache := cacheSet env.cache ip (entryOfRow row)
        entryWritten := entryOfRow row
        offline_queue := env.offline_queue
        apiCalled := false
        dbWrite := none
        pending := env.pending.erase ip }
  | none =>
      if env.geo_db_only_mode ∨ env.internet_state = IState.yellow ∨
          env.internet_state = IState.red then
        { db := env.db
          cache := cacheSet env.cache ip unavailableEntry
          entryWritten := unavailableEntry
          offline_queue := env.offline_queue ++ [(ip, network_type)]
          apiCalled := false
          dbWrite := none
          pending := env.pending.erase ip }
      else
        match env.apiResult with
        | some d =>
            { db :=
                if is_valid_geo_data d then save_geo_to_db env.geo_db_enabled ip d env.now env.db
                else env.db
              cache := cacheSet env.cache ip (entryOfPayload d)
              entryWritten := entryOfPayload d
              offline_queue := env.offline_queue
              apiCalled := true
              dbWrite := if is_valid_geo_data d then some d else none
              pending := env.pending.erase ip }
        | none =>
            { db := env.db
              cache := cacheSet env.cache ip unavailableEntry
              entryWritten := unavailableEntry
              offline_queue := env.offline_queue
              apiCalled := true
              dbWrite := none
              pending := env.pending.erase ip }

/-- The location-status classification of `api_peers`
(lines 1113-1124): a peer on an overlay network or with a private address
shows `private`; otherwise an `ok` session entry with a non-empty city
shows `ok`, an `unavailable` entry shows `unavailable`, and anything else
— including no entry at all — shows `pending`. -/
def location_status (network_type ip : String) (geo : Option CacheEntry) : String :=
  if network_type = "onion" ∨ network_type = "i2p" ∨ network_type = "cjdns" ∨
      is_private_ip ip then "private"
  else
    match geo with
    | some g =>
        if g.status = "ok" ∧ g.city ≠ "" then "ok"
        else if g.status = "unavailable" then "unavailable"
        else "pending"
    | none => "pending"

/-! ## C9: upsert/get round trip -/

/-- C9: at store level an upserted row is returned verbatim by a get for
its key; at program level, `save_geo_to_db` of a valid payload followed by
`get_geo_from_db` for the same IP returns exactly the row that was
written — every field equal. -/
theorem geo_upsert_get_round_trip :
    (∀ (r : GeoRow) (db : GeoDb), lookupRow (upsertRow r db) r.ip = some r) ∧
    (∀ (ip : String) (d : GeoPayload) (now : ℤ) (db : GeoDb),
      is_valid_geo_data d = true →
        get_geo_from_db true ip (save_geo_to_db true ip d now db) =
          some (rowOfData ip d now)) := by
  refine ⟨lookupRow_upsertRow_self, ?_⟩
  intro ip d now db _
  simpa [get_geo_from_db, save_geo_to_db] using
    lookupRow_upsertRow_self (rowOfData ip d now) db

/-- A concrete valid payload (the spec's `{lat:0, lon:0, country:"Ghana"}`
example). -/
def ghanaPayload : GeoPayload :=
  { lat := some (GNum.num 0), lon := some (GNum.num 0), country := "Ghana" }

/-- Witness for `geo_upsert_get_round_trip` at a concrete row, payload and
store. -/
theorem geo_upsert_get_round_trip_witness :
    lookupRow (upsertRow (rowOfData "1.2.3.4" ghanaPayload 1000) []) "1.2.3.4" =
        some (rowOfData "1.2.3.4" ghanaPayload 1000) ∧
      get_geo_from_db true "1.2.3.4" (save_geo_to_db true "1.2.3.4" ghanaPayload 1000 []) =
        some (rowOfData "1.2.3.4" ghanaPayload 1000) :=
  ⟨geo_upsert_get_round_trip.1 (rowOfData "1.2.3.4" ghanaPayload 1000) [],
    geo_upsert_get_round_trip.2 "1.2.3.4" ghanaPayload 1000 [] (by decide)⟩

/-! ## C3: the payload validator -/

/-- A payload the spec's validity condition accepts (its country " " is a
non-empty string) but the code rejects (`' '.strip()` is empty). -/
def blankCountryPayload : GeoPayload :=
  { lat := some (GNum.num 1), lon := some (GNum.num 1), country := " " }

/-- C3 counterexample: the claim's "returns true iff ... the country
string is non-empty ..." fails at `{lat:1, lon:1, country:" "}`: the
payload satisfies the claimed right-hand side (`specValidGeo`) yet
`is_valid_geo_data` returns false, because the code also requires
`country.strip()` to be non-empty. -/
theorem geo_validator_claim_counterexample :
    specValidGeo blankCountryPayload ∧ is_valid_geo_data blankCountryPayload = false := by
  refine ⟨⟨1, 1, rfl, rfl, by decide, by decide, by decide, by decide, by decide,
    fun _ => by decide⟩, by decide⟩

/-- The validity condition with the one correction the counterexample
forces: the country must also be non-blank (non-empty after stripping
whitespace). -/
def amendedValidGeo (d : GeoPayload) : Prop :=
  ∃ la lo, d.lat = some (GNum.num la) ∧ d.lon = some (GNum.num lo) ∧
    -90 ≤ la ∧ la ≤ 90 ∧ -180 ≤ lo ∧ lo ≤ 180 ∧
    d.country ≠ "" ∧ pyStripEmpty d.country = false ∧
    (la = 0 ∧ lo = 0 → d.country ≠ "")

/-- C3 (amended): the validator accepts exactly the payloads with present,
numeric, in-range coordinates and a non-empty, non-blank country (the
(0,0)-needs-a-country condition is subsumed); the spec's two concrete
examples hold; and the worker persists a payload only if the validator
accepted it. -/
theorem geo_validator_amended :
    (∀ d : GeoPayload, is_valid_geo_data d = true ↔ amendedValidGeo d) ∧
    (is_valid_geo_data { lat := some (GNum.num 0), lon := some (GNum.num 0) } = false ∧
      is_valid_geo_data ghanaPayload = true) ∧
    (∀ (env : GeoWorkerEnv) (ip network_type : String) (d : GeoPayload),
      (geo_worker_step env ip network_type).dbWrite = some d →
        is_valid_geo_data d = true) := by
  refine ⟨?_, ⟨by decide, by decide⟩, ?_⟩
  · intro d
    constructor
    · intro h
      unfold is_valid_geo_data at h
      rcases hl : d.lat with _ | g <;> rw [hl] at h
      · exact absurd h (by simp)
      rcases ho : d.lon with _ | g2 <;> rw [ho] at h
      · cases g <;> exact absurd h (by simp)
      cases g with
      | nonNum => cases g2 <;> exact absurd h (by simp)
      | num la =>
          cases g2 with
          | nonNum => exact absurd h (by simp)
          | num lo =>
              simp only at h
              split_ifs at h with h1 h2 h3
              push_neg at h1
              rw [not_or] at h3
              obtain ⟨hc, hs⟩ := h3
              exact ⟨la, lo, hl, ho, h1.1.1, h1.1.2, h1.2.1, h1.2.2, hc,
                Bool.not_eq_true _ ▸ hs, fun _ => hc⟩
    · rintro ⟨la, lo, hl, ho, hla1, hla2, hlo1, hlo2, hc, hs, _⟩
      unfold is_valid_geo_data
      rw [hl, ho]
      simp only
      rw [if_neg (by push_neg; exact ⟨⟨hla1, hla2⟩, hlo1, hlo2⟩),
        if_neg (by rintro ⟨_, _, h⟩; exact hc h),
        if_neg (by rw [not_or]; exact ⟨hc, by simp [hs]⟩)]
  · intro env ip nt d h
    unfold geo_worker_step at h
    split at h
    · simp at h
    · split at h
      · simp at h
      · split at h
        · simp only at h
          split at h
          · rename_i hv
            obtain rfl : _ = d := Option.some_injective _ h
            exact hv
          · simp at h
        · simp at h

/-- Witness for `geo_validator_amended`: the amended characterization and
the persistence guard evaluated at concrete inputs. -/
theorem geo_validator_amended_witness :
    is_valid_geo_data ghanaPayload = true ∧ amendedValidGeo ghanaPayload :=
  ⟨geo_validator_amended.2.1.2,
    (geo_validator_amended.1 ghanaPayload).mp geo_validator_amended.2.1.2⟩

/-! ## C1: the worker's offline/database-only path -/

/-- A worker environment in database-only mode whose store does not hold
the dequeued IP and whose session cache is empty. -/
def offlineEnv : GeoWorkerEnv :=
  { db := [], geo_db_enabled := true, geo_db_only_mode := true
    internet_state := IState.green, apiResult := none, now := 0
    cache := fun _ => none, offline_queue := [], pending := ["9.9.9.9"] }

/-- C1 counterexample: on a store miss in database-only mode the worker
defers the IP to the offline retry list and makes no API call — but it
does NOT leave the session-cache entry unset: it writes an entry (with
status `unavailable`, lines 873-874 and 913-924), so consumers observe
the IP as unavailable, not as still-pending as the claim states. -/
theorem geo_worker_offline_cache_counterexample :
    (geo_worker_step offlineEnv "9.9.9.9" "ipv4").offline_queue = [("9.9.9.9", "ipv4")] ∧
    (geo_worker_step offlineEnv "9.9.9.9" "ipv4").apiCalled = false ∧
    ¬(geo_worker_step offlineEnv "9.9.9.9" "ipv4").cache "9.9.9.9" = none := by
  refine ⟨rfl, rfl, ?_⟩
  show ¬(cacheSet offlineEnv.cache "9.9.9.9" unavailableEntry) "9.9.9.9" = none
  simp [cacheSet, offlineEnv]

/-- C1 (amended): whenever the dequeued IP misses the persistent store and
the pipeline is in database-only mode or the connectivity state is yellow
or red, the worker appends the IP to the offline retry list, calls no
external API, persists nothing — and writes the session-cache entry with
status `unavailable` for the IP (rather than leaving it unset). -/
theorem geo_worker_offline_defers_amended (env : GeoWorkerEnv) (ip network_type : String)
    (hdb : get_geo_from_db env.geo_db_enabled ip env.db = none)
    (hskip : env.geo_db_only_mode = true ∨ env.internet_state = IState.yellow ∨
      env.internet_state = IState.red) :
    (geo_worker_step env ip network_type).offline_queue =
        env.offline_queue ++ [(ip, network_type)] ∧
      (geo_worker_step env ip network_type).apiCalled = false ∧
      (geo_worker_step env ip network_type).dbWrite = none ∧
      (geo_worker_step env ip network_type).cache ip = some unavailableEntry := by
  unfold geo_worker_step
  rw [hdb]
  simp only
  rw [if_pos (by simpa using hskip)]
  exact ⟨rfl, rfl, rfl, by simp [cacheSet]⟩

/-- Witness for `geo_worker_offline_defers_amended` at the concrete
offline environment. -/
theorem geo_worker_offline_defers_amended_witness :
    (geo_worker_step offlineEnv "9.9.9.9" "ipv4").offline_queue = [("9.9.9.9", "ipv4")] ∧
      (geo_worker_step offlineEnv "9.9.9.9" "ipv4").apiCalled = false ∧
      (geo_worker_step offlineEnv "9.9.9.9" "ipv4").dbWrite = none ∧
      (geo_worker_step offlineEnv "9.9.9.9" "ipv4").cache "9.9.9.9" = some unavailableEntry :=
  geo_worker_offline_defers_amended offlineEnv "9.9.9.9" "ipv4" rfl (Or.inl rfl)

/-! ## C10: session-cache statuses and how consumers classify them -/

/-- An `ok` session entry with an empty city: written by the worker for a
valid payload whose city field is empty (the validator does not require a
city), yet reported `pending` by `api_peers`. -/
def okNoCityEntry : CacheEntry := { status := "ok", country := "Ghana" }

/-- C10 counterexample: `api_peers` reports `pending` for a public IP
whose session-cache entry is present with status `ok` but no city
(line 1116 requires a non-empty city for `ok`), so "pending exactly when
the IP has no session-cache entry at all" is false. -/
theorem geo_pending_with_entry_counterexample :
    location_status "ipv4" "8.8.8.8" (some okNoCityEntry) = "pending" ∧
      (some okNoCityEntry ≠ (none : Option CacheEntry)) := by
  exact ⟨by decide, by simp⟩

/-- C10 (amended): no writer ever stores a `pending` entry — the worker
writes only `ok` or `unavailable` (and only at the dequeued IP), the
private path writes `private` — and consumers report an IP as pending
exactly when it is not classified private and its session entry is either
absent, or present but neither `unavailable` nor `ok`-with-a-city. -/
theorem geo_cache_status_amended :
    (∀ (env : GeoWorkerEnv) (ip network_type : String),
      ((geo_worker_step env ip network_type).entryWritten.status = "ok" ∨
        (geo_worker_step env ip network_type).entryWritten.status = "unavailable") ∧
      (geo_worker_step env ip network_type).cache ip =
          some (geo_worker_step env ip network_type).entryWritten ∧
      ∀ x, x ≠ ip →
        (geo_worker_step env ip network_type).cache x = env.cache x) ∧
    (∀ (c : GeoCache) (ip : String),
      set_cached_geo_private c ip ip = some privateEntry ∧
        privateEntry.status = "private") ∧
    (∀ (network_type ip : String) (geo : Option CacheEntry),
      location_status network_type ip geo = "pending" ↔
        ¬(network_type = "onion" ∨ network_type = "i2p" ∨ network_type = "cjdns" ∨
            is_private_ip ip = true) ∧
          ∀ g, geo = some g → ¬(g.status = "ok" ∧ g.city ≠ "") ∧ g.status ≠ "unavailable") := by
  refine ⟨?_, ?_, ?_⟩
  · intro env ip nt
    refine ⟨?_, ?_, ?_⟩
    · unfold geo_worker_step
      split
      · left; rfl
      · split
        · right; rfl
        · split
          · left; rfl
          · right; rfl
    · unfold geo_worker_step
      split
      · simp [cacheSet]
      · split
        · simp [cacheSet]
        · split
          · simp [cacheSet]
          · simp [cacheSet]
    · intro x hx
      unfold geo_worker_step
      split
      · simp [cacheSet, hx]
      · split
        · simp [cacheSet, hx]
        · split
          · simp [cacheSet, hx]
          · simp [cacheSet, hx]
  · intro c ip
    exact ⟨by simp [set_cached_geo_private, cacheSet], rfl⟩
  · intro nt ip geo
    unfold location_status
    by_cases hp : nt = "onion" ∨ nt = "i2p" ∨ nt = "cjdns" ∨ is_private_ip ip = true
    · rw [if_pos (by simpa using hp)]
      constructor
      · intro h; exact absurd h (by decide)
      · rintro ⟨h, _⟩; exact absurd hp h
    · rw [if_neg (by simpa using hp)]
      cases geo with
      | none =>
          simp only
          constructor
          · intro _
            exact ⟨hp, by rintro g ⟨⟩⟩
          · intro _; trivial
      | some g =>
          simp only
          constructor
          · intro h
            split_ifs at h with h1 h2
            · exact absurd h (by decide)
            · exact absurd h (by decide)
            · exact ⟨hp, fun g2 hg2 => by
                obtain rfl : g = g2 := Option.some_injective _ hg2
                exact ⟨h1, h2⟩⟩
          · rintro ⟨_, hg⟩
            obtain ⟨h1, h2⟩ := hg g rfl
            rw [if_neg h1, if_neg h2]

/-- Witness for `geo_cache_status_amended`: the classifier at a concrete
public IP with no session entry reports pending. -/
theorem geo_cache_status_amended_witness :
    location_status "ipv4" "9.9.9.9" none = "pending" :=
  (geo_cache_status_amended.2.2 "ipv4" "9.9.9.9" none).mpr
    ⟨by decide, by rintro g ⟨⟩⟩

/-! ## Pending-lookup set (MBCoreServer.py lines 926-931 and 962-967)

`pending_lookups` is a Python set guarded by `pending_lock`;
`queue_geo_lookup` adds to it and to `geo_queue` atomically and is a
no-op when the IP is already pending; one pass of the worker removes the
dequeued pair from the queue and, at the end, discards the IP from the
set.  The set is modelled as a list whose no-duplicate property is proved,
so that "at most one entry" is a statement, not a typing accident. -/

structure PendingState where
  pending : List String
  queue : List (String × String)
deriving DecidableEq, Repr

/-- `queue_geo_lookup` (lines 962-967). -/
def queue_geo_lookup (s : PendingState) (ip network_type : String) : PendingState :=
  if ip ∈ s.pending then s
  else { pending := s.pending ++ [ip], queue := s.queue ++ [(ip, network_type)] }

inductive PendOp where
  | enqueue (ip network_type : String)
  | finish
deriving DecidableEq, Repr

/-- The two operations that touch the pending set: a caller's
`queue_geo_lookup`, and the worker finishing one dequeued lookup cycle
(`geo_queue.get` at line 853 paired with `pending_lookups.discard` at
line 927). -/
def pendStep (s : PendingState) : PendOp → PendingState
  | PendOp.enqueue ip network_type => queue_geo_lookup s ip network_type
  | PendOp.finish =>
      match s.queue with
      | [] => s
      | (ip, _) :: rest => { pending := s.pending.erase ip, queue := rest }

/-- A run of pending-set operations from the initial empty state
(line 231: `pending_lookups = set()`). -/
def runPend (ops : List PendOp) : PendingState :=
  ops.foldl pendStep ⟨[], []⟩

def PendInv (s : PendingState) : Prop :=
  s.pending.Nodup ∧ (s.queue.map Prod.fst).Nodup ∧
    ∀ pr ∈ s.queue, pr.1 ∈ s.pending

/-! ## Peer refresh tick (MBCoreServer.py lines 974-1047) -/

structure PeerAddr where
  ip : String
  port : String
  network : String
deriving DecidableEq, Repr

inductive ChangeKind where
  | connected
  | disconnected
deriving DecidableEq, Repr

/-- One element of `recent_changes`: `(now, 'connected'|'disconnected',
{ip, port, network})`. -/
structure ChangeEvent where
  time : ℚ
  kind : ChangeKind
  addr : PeerAddr
deriving DecidableEq, Repr

/-- One record of the `getpeerinfo` snapshot, reduced to the fields the
tick reads: `str(peer.get('id',''))` (pre-stringified here), `addr`, and
the optional `network` field. -/
structure PeerRaw where
  id : String
  addr : String
  network : Option String
deriving DecidableEq, Repr

def RECENT_WINDOW : ℚ := 20

/-- `peer_ip_map[peer_id] = {...}` — dict update: replace in place or
append. -/
def mapUpsert (m : List (String × PeerAddr)) (k : String) (v : PeerAddr) :
    List (String × PeerAddr) :=
  if m.any (fun q => q.1 = k) then m.map (fun q => if q.1 = k then (k, v) else q)
  else m ++ [(k, v)]

/-- `peer_ip_map.pop(pid, {})` (line 1027): the remembered address (if
any) and the map without the entry. -/
def mapPop (m : List (String × PeerAddr)) (k : String) :
    Option PeerAddr × List (String × PeerAddr) :=
  ((m.find? (fun q => q.1 = k)).map Prod.snd, m.eraseP (fun q => q.1 = k))

/-- The state the refresh loop persists across ticks, restricted to what
one tick's diffing reads and writes (`current_peers`, the addrman counter
and `geo_pending_count` are disjoint bookkeeping). -/
structure TickState where
  previous_ids : List String
  peer_ip_map : List (String × PeerAddr)
  recent_changes : List ChangeEvent
  cache : GeoCache
  pend : PendingState

/-- The accumulator of the `for peer in peers` loop (lines 996-1021). -/
structure PeerLoopState where
  peer_ip_map : List (String × PeerAddr)
  newConnected : List ChangeEvent
  cache : GeoCache
  pend : PendingState

/-- One iteration of the peer loop: update the identity map, record a
`connected` event when the id is new and this is not the first tick
(line 1009-1012), then classify un-cached IPs (queue public ones, mark
the rest private, lines 1014-1021). -/
def processPeer (previous_ids : List String) (now : ℚ) (st : PeerLoopState)
    (p : PeerRaw) : PeerLoopState :=
  let network_type := p.network.getD (get_network_type p.addr)
  let ip := extract_ip p.addr
  let port := extract_port p.addr
  let m := mapUpsert st.peer_ip_map p.id ⟨ip, port, network_type⟩
  let ev :=
    if p.id ∉ previous_ids ∧ previous_ids ≠ [] then
      st.newConnected ++ [⟨now, ChangeKind.connected, ⟨ip, port, network_type⟩⟩]
    else st.newConnected
  match get_cached_geo st.cache ip with
  | some _ => { peer_ip_map := m, newConnected := ev, cache := st.cache, pend := st.pend }
  | none =>
      if is_public_address network_type ip then
        { peer_ip_map := m, newConnected := ev, cache := st.cache,
          pend := queue_geo_lookup st.pend ip network_type }
      else
        { peer_ip_map := m, newConnected := ev,
          cache := set_cached_geo_private st.cache ip, pend := st.pend }

/-- The disconnect loop (lines 1025-1032): pop each vanished id's map
entry and record a `disconnected` event from the remembered address
(field defaults `peer#<pid>` / `''` / `'?'` when the map held nothing). -/
def processDisconnects (now : ℚ) (pids : List String)
    (m : List (String × PeerAddr)) : List (String × PeerAddr) × List ChangeEvent :=
  pids.foldl
    (fun acc pid =>
      let r := mapPop acc.1 pid
      let a :=
        match r.1 with
        | some a => a
        | none => ⟨"peer#" ++ pid, "", "?"⟩
      (r.2, acc.2 ++ [⟨now, ChangeKind.disconnected, a⟩]))
    (m, [])

/-- One tick of `refresh_worker` (lines 980-1047) on a fresh snapshot:
returns the new tick state and the list of ChangeEvents this tick
recorded (connected events in snapshot order, then disconnected events).
`previous_ids - current_ids` is a Python set difference whose iteration
order is unspecified; it is modelled in `previous_ids` order. -/
def refresh_tick (s : TickState) (peers : List PeerRaw) (now : ℚ) :
    TickState × List ChangeEvent :=
  let current_ids := peers.map (fun p => p.id)
  let ls := peers.foldl (processPeer s.previous_ids now)
    { peer_ip_map := s.peer_ip_map, newConnected := [], cache := s.cache, pend := s.pend }
  let gone := s.previous_ids.filter (fun pid => !(current_ids.contains pid))
  let r := processDisconnects now gone ls.peer_ip_map
  let newEvents := ls.newConnected ++ r.2
  ({ previous_ids := current_ids
     peer_ip_map := r.1
     recent_changes := (s.recent_changes ++ newEvents).filter
       (fun e => now - e.time < RECENT_WINDOW)
     cache := ls.cache
     pend := ls.pend }, newEvents)

/-! ## Bulk merge (MBCoreServer.py lines 2139-2147)

`api_geodb_update` merges the downloaded rows into the local store with
`INSERT OR IGNORE` — under the `ip TEXT PRIMARY KEY` constraint a row is
inserted only when no row with its ip exists yet (including rows inserted
earlier in the same merge). -/

def mergeIgnore (db : GeoDb) (remote : List GeoRow) : GeoDb :=
  remote.foldl
    (fun acc r => if acc.any (fun x => x.ip = r.ip) then acc else acc ++ [r]) db

/-! ## C6: diff correctness of the refresh tick -/

theorem processPeer_newConnected_of_nil (now : ℚ) (st : PeerLoopState) (p : PeerRaw) :
    (processPeer [] now st p).newConnected = st.newConnected := by
  cases hc : get_cached_geo st.cache (extract_ip p.addr) with
  | none =>
      by_cases hpub :
        is_public_address (p.network.getD (get_network_type p.addr)) (extract_ip p.addr)
      · simp [processPeer, hc, hpub]
      · simp [processPeer, hc, hpub]
  | some g => simp [processPeer, hc]

theorem peerLoop_newConnected_of_nil (now : ℚ) (peers : List PeerRaw) :
    ∀ st : PeerLoopState,
      (peers.foldl (processPeer [] now) st).newConnected = st.newConnected := by
  induction peers with
  | nil => intro st; rfl
  | cons p ps ih =>
      intro st
      rw [List.foldl_cons, ih, processPeer_newConnected_of_nil]

/-- The concrete tick of the spec's diff example: previous ids {1,2,3}
with their remembered addresses, current snapshot ids {2,3,4}. -/
def tickState0 : TickState where
  previous_ids := ["1", "2", "3"]
  peer_ip_map :=
    [("1", ⟨"1.1.1.1", "8333", "ipv4"⟩), ("2", ⟨"2.2.2.2", "8333", "ipv4"⟩),
      ("3", ⟨"3.3.3.3", "8333", "ipv4"⟩)]
  recent_changes := []
  cache := fun _ => none
  pend := ⟨[], []⟩

def tickPeers : List PeerRaw :=
  [⟨"2", "2.2.2.2:8333", none⟩, ⟨"3", "3.3.3.3:8333", none⟩, ⟨"4", "4.4.4.4:8333", none⟩]

/-- C6: on the concrete tick (previous {1,2,3}, current {2,3,4}) the
events recorded are exactly one `connected` for id 4 and one
`disconnected` for id 1 carrying the address remembered in the identity
map, whose entry for id 1 is popped in the same tick; and on a first tick
(empty previous id set) no `connected` events are recorded, whatever the
snapshot. -/
theorem refresh_tick_diff_events :
    ((refresh_tick tickState0 tickPeers 100).2 =
        [⟨100, ChangeKind.connected, ⟨"4.4.4.4", "8333", "ipv4"⟩⟩,
          ⟨100, ChangeKind.disconnected, ⟨"1.1.1.1", "8333", "ipv4"⟩⟩] ∧
      (refresh_tick tickState0 tickPeers 100).1.peer_ip_map.find?
          (fun q => q.1 = "1") = none) ∧
    ∀ (peers : List PeerRaw) (now : ℚ) (m : List (String × PeerAddr))
        (ch : List ChangeEvent) (c : GeoCache) (pd : PendingState),
      (refresh_tick ⟨[], m, ch, c, pd⟩ peers now).2.filter
          (fun e => e.kind == ChangeKind.connected) = [] := by
  refine ⟨⟨by decide, by decide⟩, ?_⟩
  intro peers now m ch c pd
  have h1 : (refresh_tick ⟨[], m, ch, c, pd⟩ peers now).2 =
      (peers.foldl (processPeer [] now) ⟨m, [], c, pd⟩).newConnected ++ [] := rfl
  rw [h1, peerLoop_newConnected_of_nil]
  rfl

/-! ## C7: bulk merge fills gaps only -/

theorem mergeIgnore_nil (db : GeoDb) : mergeIgnore db [] = db := rfl

theorem mergeIgnore_cons (db : GeoDb) (r : GeoRow) (rs : List GeoRow) :
    mergeIgnore db (r :: rs) =
      mergeIgnore (if db.any (fun x => x.ip = r.ip) then db else db ++ [r]) rs := rfl

theorem mergeIgnore_any_mono (remote : List GeoRow) :
    ∀ (acc : GeoDb) (p : GeoRow → Bool), acc.any p = true →
      (mergeIgnore acc remote).any p = true := by
  induction remote with
  | nil => intro acc p h; exact h
  | cons r rs ih =>
      intro acc p h
      rw [mergeIgnore_cons]
      refine ih _ p ?_
      split
      · exact h
      · simp [List.any_append, h]

theorem mergeIgnore_mem_any (remote : List GeoRow) :
    ∀ (acc : GeoDb) (r : GeoRow), r ∈ remote →
      (mergeIgnore acc remote).any (fun x => x.ip = r.ip) = true := by
  induction remote with
  | nil => intro acc r h; cases h
  | cons q qs ih =>
      intro acc r h
      rw [mergeIgnore_cons]
      rcases List.mem_cons.mp h with rfl | hmem
      · apply mergeIgnore_any_mono
        split
        · rename_i hany; exact hany
        · simp [List.any_append]
      · exact ih _ r hmem

theorem mergeIgnore_of_all_present (remote : List GeoRow) :
    ∀ M : GeoDb, (∀ r ∈ remote, M.any (fun x => x.ip = r.ip) = true) →
      mergeIgnore M remote = M := by
  induction remote with
  | nil => intro M _; rfl
  | cons q qs ih =>
      intro M h
      rw [mergeIgnore_cons, if_pos (h q (List.mem_cons_self q qs))]
      exact ih M (fun r hr => h r (List.mem_cons_of_mem q hr))

theorem mergeIgnore_eq_append (remote : List GeoRow) :
    ∀ acc : GeoDb, ∃ extra, mergeIgnore acc remote = acc ++ extra := by
  induction remote with
  | nil => intro acc; exact ⟨[], by simp [mergeIgnore_nil]⟩
  | cons q qs ih =>
      intro acc
      rw [mergeIgnore_cons]
      split
      · exact ih acc
      · obtain ⟨e, he⟩ := ih (acc ++ [q])
        exact ⟨q :: e, by rw [he, List.append_assoc]; rfl⟩

theorem find?_append_left {p : GeoRow → Bool} {l1 : List GeoRow} {r : GeoRow}
    (l2 : List GeoRow) (h : l1.find? p = some r) : (l1 ++ l2).find? p = some r := by
  induction l1 with
  | nil => simp [List.find?] at h
  | cons x xs ih =>
      by_cases hx : p x
      · rw [List.find?_cons_of_pos _ hx] at h
        rw [List.cons_append, List.find?_cons_of_pos _ hx]
        exact h
      · rw [List.find?_cons_of_neg _ hx] at h
        rw [List.cons_append, List.find?_cons_of_neg _ hx]
        exact ih h

/-- C7: the merge path inserts a downloaded row only when no row with its
ip exists — a row already present is returned unchanged by a lookup after
the merge — and merging the same dataset a second time is the identity,
so the row count is unchanged. -/
theorem geodb_merge_insert_if_absent :
    (∀ (db : GeoDb) (remote : List GeoRow) (ip : String) (r : GeoRow),
      lookupRow db ip = some r → lookupRow (mergeIgnore db remote) ip = some r) ∧
    (∀ (db : GeoDb) (remote : List GeoRow),
      mergeIgnore (mergeIgnore db remote) remote = mergeIgnore db remote ∧
        (mergeIgnore (mergeIgnore db remote) remote).length =
          (mergeIgnore db remote).length) := by
  constructor
  · intro db remote ip r h
    obtain ⟨e, he⟩ := mergeIgnore_eq_append remote db
    rw [he]
    exact find?_append_left e h
  · intro db remote
    have h := mergeIgnore_of_all_present remote (mergeIgnore db remote)
      (fun r hr => mergeIgnore_mem_any remote db r hr)
    exact ⟨h, by rw [h]⟩

/-- Two rows with the same primary key but different fields. -/
def rowA : GeoRow := rowOfData "1.2.3.4" ghanaPayload 5

def rowB : GeoRow := rowOfData "1.2.3.4" { country := "X" } 9

/-- Witness for `geodb_merge_insert_if_absent`: merging a conflicting
downloaded row does not overwrite the existing row. -/
theorem geodb_merge_insert_if_absent_witness :
    lookupRow (mergeIgnore [rowA] [rowB]) "1.2.3.4" = some rowA :=
  geodb_merge_insert_if_absent.1 [rowA] [rowB] "1.2.3.4" rowA (by decide)

/-! ## C8: single-flight pending set -/

theorem pendStep_inv (s : PendingState) (op : PendOp) (h : PendInv s) :
    PendInv (pendStep s op) := by
  obtain ⟨hnd, hqnd, hmem⟩ := h
  cases op with
  | enqueue ip nt =>
      show PendInv (queue_geo_lookup s ip nt)
      unfold queue_geo_lookup
      split
      · exact ⟨hnd, hqnd, hmem⟩
      · rename_i hip
        refine ⟨?_, ?_, ?_⟩
        · simp [List.nodup_append, hnd, hip]
        · have hipq : ip ∉ s.queue.map Prod.fst := by
            intro hc
            obtain ⟨pr, hpr, hfst⟩ := List.mem_map.mp hc
            exact hip (hfst ▸ hmem pr hpr)
          simp [List.map_append, List.nodup_append, hqnd, hipq]
        · intro pr hpr
          rcases List.mem_append.mp hpr with h1 | h1
          · exact List.mem_append_left _ (hmem pr h1)
          · simp only [List.mem_singleton] at h1
            subst h1
            simp
  | finish =>
      cases hq : s.queue with
      | nil =>
          simp only [pendStep, hq]
          exact ⟨hnd, hqnd, hmem⟩
      | cons pr rest =>
          obtain ⟨ip, nt⟩ := pr
          simp only [pendStep, hq]
          rw [hq] at hqnd hmem
          simp only [List.map_cons, List.nodup_cons] at hqnd
          refine ⟨hnd.erase ip, hqnd.2, ?_⟩
          intro q hqr
          have hqip : q.1 ≠ ip := by
            intro hh
            exact hqnd.1 (hh ▸ List.mem_map.mpr ⟨q, hqr, rfl⟩)
          exact (List.mem_erase_of_ne hqip).mpr (hmem q (List.mem_cons_of_mem _ hqr))

theorem runPend_inv (ops : List PendOp) : PendInv (runPend ops) := by
  suffices h : ∀ s, PendInv s → PendInv (ops.foldl pendStep s) by
    exact h ⟨[], []⟩ ⟨List.nodup_nil, List.nodup_nil, by simp⟩
  induction ops with
  | nil => intro s hs; exact hs
  | cons op rest ih =>
      intro s hs
      exact ih _ (pendStep_inv s op hs)

/-- C8: enqueueing an already-pending IP is a no-op; in every state
reachable from the initial empty state an IP has at most one entry in the
pending set; and when the worker finishes the lookup cycle at the head of
the queue, that IP's membership drops from exactly one to zero — released
exactly once. -/
theorem pending_single_flight :
    (∀ (s : PendingState) (ip network_type : String),
      ip ∈ s.pending → queue_geo_lookup s ip network_type = s) ∧
    (∀ (ops : List PendOp) (ip : String), (runPend ops).pending.count ip ≤ 1) ∧
    (∀ (ops : List PendOp) (ip network_type : String) (rest : List (String × String)),
      (runPend ops).queue = (ip, network_type) :: rest →
        (runPend ops).pending.count ip = 1 ∧
          (pendStep (runPend ops) PendOp.finish).pending.count ip = 0) := by
  refine ⟨?_, ?_, ?_⟩
  · intro s ip nt h
    unfold queue_geo_lookup
    rw [if_pos h]
  · intro ops ip
    exact List.nodup_iff_count_le_one.mp (runPend_inv ops).1 ip
  · intro ops ip nt rest hq
    obtain ⟨hnd, hqnd, hmem⟩ := runPend_inv ops
    have hip : ip ∈ (runPend ops).pending :=
      hmem (ip, nt) (by rw [hq]; exact List.mem_cons_self _ _)
    have hcount : (runPend ops).pending.count ip = 1 := by
      have h1 := List.nodup_iff_count_le_one.mp hnd ip
      have h2 : 0 < (runPend ops).pending.count ip := List.count_pos_iff.mpr hip
      omega
    refine ⟨hcount, ?_⟩
    simp only [pendStep, hq]
    rw [List.count_erase_self, hcount]

/-- Witness for `pending_single_flight`: a concrete duplicate enqueue is a
no-op, and finishing the one queued lookup releases the IP. -/
theorem pending_single_flight_witness :
    queue_geo_lookup ⟨["1.2.3.4"], []⟩ "1.2.3.4" "ipv4" = ⟨["1.2.3.4"], []⟩ ∧
      (runPend [PendOp.enqueue "1.2.3.4" "ipv4"]).pending.count "1.2.3.4" = 1 ∧
      (pendStep (runPend [PendOp.enqueue "1.2.3.4" "ipv4"]) PendOp.finish).pending.count
          "1.2.3.4" = 0 :=
  ⟨pending_single_flight.1 ⟨["1.2.3.4"], []⟩ "1.2.3.4" "ipv4" (by simp),
    (pending_single_flight.2.2 [PendOp.enqueue "1.2.3.4" "ipv4"] "1.2.3.4" "ipv4" [] rfl).1,
    (pending_single_flight.2.2 [PendOp.enqueue "1.2.3.4" "ipv4"] "1.2.3.4" "ipv4" [] rfl).2⟩

end MBCore
